import Mathlib

/-!
# Verification of the AWS cost-optimizer aggregation core

Shallow embedding of the analysis pipeline of `cost_optimizer_main.py`
(lines 97-128): the script loads raw billing entries into a pandas
DataFrame, parses the `Date` column, computes daily totals
(`groupby('Date')['Cost'].sum()`), per-service totals
(`groupby('Service')['Cost'].sum()`, displayed sorted by cost descending),
adds a per-(date, service) summed column via
`groupby(['Date','Service'])['Cost'].transform('sum')`, filters rows whose
pair sum exceeds the threshold (the script hardcodes 10), deduplicates by
(Date, Service) keeping the first row, and prints one recommendation per
surviving row using that row's own `Cost` and `Unit` fields.

DataFrames are modelled as Lean lists of records; pandas `groupby` with its
default `sort=True` is modelled by sorting the distinct keys ascending.
`sort_values(by='Cost', ascending=False)` runs under the pandas default
`kind='quicksort'` (numpy introsort), which numpy documents as not stable:
the program guarantees only that the displayed service table is a
rearrangement of the grouped table that is non-increasing in total cost,
and promises nothing about the relative order of services whose totals
tie.  That guarantee is captured by the relation `IsCostDescPerm`, against
which the display-order claims are settled; the executable
`sort_values_cost_desc` is one admissible refinement of it, used only to
build the concrete `Report` value.  Costs are rationals (exact model of
the float arithmetic; all claims are about exact sums).
-/

namespace CostOpt

/-- A canonical row of the DataFrame `df` after line 100 (`Date` parsed).
The date is the parsed calendar date, encoded as the number
y*10000 + m*100 + d, which orders chronologically exactly as the
`datetime` values do. -/
structure Row where
  date : ℕ
  service : String
  cost : ℚ
  unit : String
  deriving DecidableEq, Repr

/-- Line 109: `daily_total_cost = df.groupby('Date')['Cost'].sum().reset_index()`.
Distinct dates sorted ascending (pandas groupby default `sort=True`), each
paired with the sum of `Cost` over the rows carrying that date. -/
def daily_total_cost (df : List Row) : List (ℕ × ℚ) :=
  ((df.map Row.date).dedup.mergeSort (fun a b => decide (a ≤ b))).map
    (fun d => (d, ((df.filter (fun r => decide (r.date = d))).map Row.cost).sum))

/-- Line 115: `service_total_cost = df.groupby('Service')['Cost'].sum().reset_index()`.
Distinct services sorted ascending by name (pandas groupby default
`sort=True`; Python string comparison is code-point lexicographic, as is
the `String` order used here). -/
def service_total_cost (df : List Row) : List (String × ℚ) :=
  ((df.map Row.service).dedup.mergeSort (fun a b => decide (a ≤ b))).map
    (fun s => (s, ((df.filter (fun r => decide (r.service = s))).map Row.cost).sum))

/-- What lines 117/150 (`sort_values(by='Cost', ascending=False)` under
the default `kind='quicksort'`) guarantee about their output: it is a
permutation of the grouped service table that is non-increasing in the
summed cost.  numpy's quicksort (introsort) is documented as not stable,
so the relative order of rows with equal cost is not specified beyond
this. -/
def IsCostDescPerm (tbl out : List (String × ℚ)) : Prop :=
  List.Perm out tbl ∧ out.Pairwise fun a b => b.2 ≤ a.2

/-- One admissible output of lines 117/150, used to build the concrete
`Report` value: a deterministic descending sort by summed cost.  This is a
refinement of `IsCostDescPerm` (`sort_values_cost_desc_isCostDescPerm`);
its tie order is NOT part of the program's guarantee, and no display-order
claim is settled against it. -/
def sort_values_cost_desc (l : List (String × ℚ)) : List (String × ℚ) :=
  l.mergeSort (fun a b => decide (b.2 ≤ a.2))

/-- The strict order the spec asserts for the printed service table:
higher total cost first; equal totals ordered by service name
ascending. -/
def svcDisplayOrder (a b : String × ℚ) : Prop :=
  b.2 < a.2 ∨ (a.2 = b.2 ∧ a.1 < b.1)

/-- The summed cost of one (date, service) pair over the whole frame. -/
def pairCost (df : List Row) (d : ℕ) (s : String) : ℚ :=
  ((df.filter (fun r => decide (r.date = d) && decide (r.service = s))).map Row.cost).sum

/-- A row of `df` after line 122, carrying the derived `DayServiceCost`
column next to the original four fields. -/
structure RowDS extends Row where
  dayServiceCost : ℚ
  deriving DecidableEq, Repr

/-- Line 122: `df['DayServiceCost'] = df.groupby(['Date','Service'])['Cost'].transform('sum')`.
`transform` broadcasts each group's sum back onto every member row; row
order and all original fields are untouched. -/
def addDayServiceCost (df : List Row) : List RowDS :=
  df.map (fun r => { toRow := r, dayServiceCost := pairCost df r.date r.service })

/-- The (Date, Service) key of a transformed row. -/
def pairOf (r : RowDS) : ℕ × String :=
  (r.date, r.service)

/-- `drop_duplicates(subset=['Date','Service'])` with the pandas default
`keep='first'`: walk the rows in order, keeping a row exactly when its
(Date, Service) key has not been seen yet. -/
def dropDupPairs : List RowDS → List (ℕ × String) → List RowDS
  | [], _ => []
  | r :: rest, seen =>
    if pairOf r ∈ seen then dropDupPairs rest seen
    else r :: dropDupPairs rest (pairOf r :: seen)

/-- Line 123:
`high_cost_per_service_per_day = df[df['DayServiceCost'] > 10].drop_duplicates(subset=['Date','Service'])`.
The threshold is kept as a parameter; the script instantiates it with the
literal `10` (see `mainThreshold`). -/
def high_cost_per_service_per_day (df : List Row) (threshold : ℚ) : List RowDS :=
  dropDupPairs ((addDayServiceCost df).filter (fun r => decide (threshold < r.dayServiceCost))) []

/-- The threshold literal the one-shot script uses at line 123. -/
def mainThreshold : ℚ := 10

/-- The deduplicated per-(date, service) view of the transformed frame:
`drop_duplicates(subset=['Date','Service'])` applied to `df` after line
122, before any thresholding.  Line 123 applies the same deduplication to
the thresholded rows; since every row of a pair carries the same
`DayServiceCost`, thresholding commutes with the deduplication. -/
def byDayService (df : List Row) : List RowDS :=
  dropDupPairs (addDayServiceCost df) []

/-- The data printed by one iteration of the loop at lines 127-128: the
row's date, service, its own `Cost` field (`row['Cost']`, not the summed
`DayServiceCost`), and its own `Unit` field.  The printed message is a
fixed rendering of these four values. -/
structure Recommendation where
  date : ℕ
  service : String
  cost : ℚ
  unit : String
  deriving DecidableEq, Repr

/-- Lines 125-128: one recommendation per row of
`high_cost_per_service_per_day`, carrying that row's own fields. -/
def recommendations (df : List Row) (threshold : ℚ) : List Recommendation :=
  (high_cost_per_service_per_day df threshold).map
    (fun r => { date := r.date, service := r.service, cost := r.cost, unit := r.unit })

/-- The canonical frame of the spec's concrete scenario: two EC2 entries
of cost 5 and 6 and one S3 entry of cost 2, all on 2024-01-01, in USD. -/
def specScenario : List Row :=
  [{ date := 20240101, service := "EC2", cost := 5, unit := "USD" },
   { date := 20240101, service := "EC2", cost := 6, unit := "USD" },
   { date := 20240101, service := "S3", cost := 2, unit := "USD" }]

/-- A frame in which the two rows of one (date, service) pair carry
different units, to exhibit which row's unit a recommendation shows. -/
def mixedUnitScenario : List Row :=
  [{ date := 20240101, service := "EC2", cost := 5, unit := "USD" },
   { date := 20240101, service := "EC2", cost := 6, unit := "EUR" }]

/-- A frame with two services whose totals tie, to exhibit that the
display order of tied services is not pinned down by the program. -/
def tieScenario : List Row :=
  [{ date := 20240101, service := "A", cost := 5, unit := "USD" },
   { date := 20240101, service := "B", cost := 5, unit := "USD" }]

/-! ## The end-to-end core run, including the failure behaviour of
lines 97-109 on malformed input.

`pd.DataFrame(aws_costs)` built from an empty list has no columns, so
`df['Date']` at line 100 raises `KeyError`.  `pd.to_datetime` (line 100,
default `errors='raise'`) raises `ValueError` on the first date string it
cannot parse.  A non-numeric `Cost` value survives until the first
`groupby(...)['Cost'].sum()` at line 109, where adding a string to a float
raises `TypeError`.  The script catches none of these, so each aborts the
whole run before any aggregate is produced. -/

/-- The `Cost` field of a raw JSON billing entry: a number, or any
non-numeric JSON value (modelled by its string rendering). -/
inductive CostField where
  | num (q : ℚ)
  | str (s : String)
  deriving DecidableEq, Repr

/-- A raw billing entry as loaded from the API response or the
`mock_aws_costs.json` snapshot (line 69-74 / line 91): the `Date` still a
string, the `Cost` an arbitrary JSON value. -/
structure RawEntry where
  date : String
  service : String
  cost : CostField
  unit : String
  deriving DecidableEq, Repr

/-- Split a character list at every dash (helper for `parseDate`). -/
def splitOnDash : List Char → List (List Char)
  | [] => [[]]
  | c :: cs =>
    if c = '-' then [] :: splitOnDash cs
    else
      match splitOnDash cs with
      | [] => [[c]]
      | w :: ws => (c :: w) :: ws

/-- Read a nonempty all-digit character list as a number (helper for
`parseDate`). -/
def digitsToNat? (cs : List Char) : Option ℕ :=
  if cs.isEmpty then none
  else
    cs.foldl
      (fun acc c => acc.bind (fun n =>
        if c.isDigit then some (n * 10 + (c.toNat - 48)) else none))
      (some 0)

/-- Model of `pd.to_datetime` (line 100) on the ISO `YYYY-MM-DD` strings
this pipeline receives: accepts exactly a four-digit year, two-digit month
1..12 and two-digit day 1..31 separated by dashes, returning the
chronological key y*10000 + m*100 + d; anything else fails.  (pandas
accepts further date formats, but on the inputs considered here — ISO
dates and clearly unparseable strings — it agrees with this model.) -/
def parseDate (s : String) : Option ℕ :=
  match splitOnDash s.toList with
  | [y, m, d] =>
    match digitsToNat? y, digitsToNat? m, digitsToNat? d with
    | some yn, some mn, some dn =>
      if y.length = 4 && m.length = 2 && d.length = 2
          && 1 ≤ mn && mn ≤ 12 && 1 ≤ dn && dn ≤ 31
      then some (yn * 10000 + mn * 100 + dn)
      else none
    | _, _, _ => none
  | _ => none

/-- The numeric value of a `Cost` field (only meaningful on `num`). -/
def costVal : CostField → ℚ
  | .num q => q
  | .str _ => 0

/-- Whether a `Cost` field is non-numeric. -/
def costIsStr : CostField → Bool
  | .num _ => false
  | .str _ => true

/-- The ways the script's analysis section dies on bad input (uncaught
Python exceptions; the script has no handler around lines 97-128). -/
inductive PipeError where
  | keyErrorDate    -- line 100: `df['Date']` on a column-less empty frame
  | malformedDate   -- line 100: `pd.to_datetime` ValueError
  | nonNumericCost  -- line 109: string `Cost` inside `sum()` (TypeError)
  deriving DecidableEq, Repr

/-- The analysis artifacts the script prints and plots: daily totals
(line 109), service totals as displayed (line 117), the thresholded
deduplicated rows (line 123) and the recommendations (lines 125-128). -/
structure Report where
  daily : List (ℕ × ℚ)
  byServiceSorted : List (String × ℚ)
  highCost : List RowDS
  recs : List Recommendation
  deriving DecidableEq, Repr

/-- The analysis artifacts computed from a well-formed canonical frame. -/
def mkReport (df : List Row) (threshold : ℚ) : Report :=
  { daily := daily_total_cost df
    byServiceSorted := sort_values_cost_desc (service_total_cost df)
    highCost := high_cost_per_service_per_day df threshold
    recs := recommendations df threshold }

/-- Lines 97-128 as a function of the loaded raw entries: build the frame,
parse all dates (aborting on the first failure), run the aggregations
(aborting if a non-numeric cost reaches a sum), and produce the report.
The script performs no per-record rejection: a single bad record kills the
entire run. -/
def runCore (entries : List RawEntry) (threshold : ℚ) : Except PipeError Report :=
  if entries.isEmpty then .error .keyErrorDate
  else
    match entries.mapM (fun e => parseDate e.date) with
    | none => .error .malformedDate
    | some dates =>
      if entries.any (fun e => costIsStr e.cost) then .error .nonNumericCost
      else
        .ok (mkReport ((entries.zip dates).map
          (fun p => { date := p.2, service := p.1.service,
                      cost := costVal p.1.cost, unit := p.1.unit })) threshold)

/-! ## Ambient state threading

The analysis section's only interactions with the world are outputs:
`print` calls and the two `savefig` calls (lines 146/156).  `World`
records that ambient state; `runCoreSt` is `runCore` with the world
threaded through explicitly, so that independence of the report from the
incoming world is a statement, not a modelling assumption. -/

/-- Ambient state the script appends to: the stdout log and the list of
files written by `savefig`. -/
structure World where
  stdout : List String
  savedFiles : List String
  deriving DecidableEq, Repr

/-- Rendering of one recommendation line (line 128), determined by the
four carried fields. -/
def recLine (r : Recommendation) : String :=
  "- On " ++ toString r.date ++ ", " ++ r.service ++ " cost " ++ toString r.cost
    ++ " " ++ r.unit ++ ". Consider reviewing its usage!"

/-- The stdout text of a successful run (sample, two tables, the
recommendation block or the all-clear message). -/
def renderReport (rep : Report) : List String :=
  (rep.daily.map (fun p => toString p.1 ++ " " ++ toString p.2))
    ++ (rep.byServiceSorted.map (fun p => p.1 ++ " " ++ toString p.2))
    ++ (if rep.recs.isEmpty
        then ["Costs appear to be under control; no prominent optimization recommendations at this time."]
        else "**Optimization Recommendations:**" :: rep.recs.map recLine)

/-- The analysis section with the ambient state threaded explicitly: the
report is computed from the entries, the world only receives appended
output (prints, then the two saved chart files). -/
def runCoreSt (w : World) (entries : List RawEntry) (threshold : ℚ) :
    Except PipeError Report × World :=
  match runCore entries threshold with
  | .error e => (.error e, { w with stdout := w.stdout ++ [toString (repr e)] })
  | .ok rep =>
    (.ok rep,
      { stdout := w.stdout ++ renderReport rep
        savedFiles := w.savedFiles ++ ["daily_cost_trend.png", "service_cost_distribution.png"] })

/-! ## Summing a grouped frame -/

/-- Splitting a sum along a Boolean predicate. -/
theorem sum_map_filter_add {α : Type} (p : α → Bool) (val : α → ℚ) :
    ∀ l : List α,
      ((l.filter p).map val).sum + ((l.filter fun x => !p x).map val).sum
        = (l.map val).sum := by
  intro l
  induction l with
  | nil => simp
  | cons x l ih =>
    by_cases h : p x
    · simp only [List.filter_cons, h, Bool.not_true, Bool.false_eq_true, if_true, if_false,
        List.map_cons, List.sum_cons]
      rw [← ih]; ring
    · simp only [List.filter_cons, h, Bool.not_false, Bool.false_eq_true, if_true, if_false,
        List.map_cons, List.sum_cons]
      rw [← ih]; ring

/-- Summing the per-group sums over a duplicate-free list of keys covering
the frame recovers the total sum (the heart of `groupby(...).sum()`
conservation). -/
theorem sum_groupby {α κ : Type} [DecidableEq κ] (key : α → κ) (val : α → ℚ) :
    ∀ keys : List κ, keys.Nodup → ∀ l : List α, (∀ x ∈ l, key x ∈ keys) →
      (keys.map fun k => ((l.filter fun x => decide (key x = k)).map val).sum).sum
        = (l.map val).sum := by
  intro keys
  induction keys with
  | nil =>
    intro _ l hcov
    cases l with
    | nil => simp
    | cons x t => exact absurd (hcov x (List.mem_cons_self x t)) (List.not_mem_nil _)
  | cons k ks ih =>
    intro hnd l hcov
    have hkks : k ∉ ks := (List.nodup_cons.mp hnd).1
    have hnd' : ks.Nodup := (List.nodup_cons.mp hnd).2
    simp only [List.map_cons, List.sum_cons]
    rw [← sum_map_filter_add (fun x => decide (key x = k)) val l]
    congr 1
    have hmaps : ∀ k' ∈ ks,
        ((l.filter fun x => decide (key x = k')).map val).sum
          = (((l.filter fun x => !decide (key x = k)).filter
              fun x => decide (key x = k')).map val).sum := by
      intro k' hk'
      have hk'k : k' ≠ k := fun h => hkks (h ▸ hk')
      have hfeq : (l.filter fun x => decide (key x = k'))
          = ((l.filter fun x => !decide (key x = k)).filter
              fun x => decide (key x = k')) := by
        rw [List.filter_filter]
        apply List.filter_congr
        intro x _
        by_cases h : key x = k'
        · simp [h, hk'k]
        · simp [h]
      rw [← hfeq]
    rw [List.map_congr_left hmaps]
    apply ih hnd'
    intro x hx
    have hxl : x ∈ l := List.mem_of_mem_filter hx
    rcases List.mem_cons.mp (hcov x hxl) with h | h
    · exfalso
      have := (List.mem_filter.mp hx).2
      simp [h] at this
    · exact h

/-- Collapsing the pairing map used by `reset_index`. -/
theorem sum_snd_map_pair {κ : Type} (keys : List κ) (F : κ → ℚ) :
    ((keys.map fun k => (k, F k)).map Prod.snd).sum = (keys.map F).sum := by
  rw [List.map_map]
  rfl

/-- The daily totals sum to the total cost of the frame. -/
theorem daily_total_cost_sum (df : List Row) :
    ((daily_total_cost df).map Prod.snd).sum = (df.map Row.cost).sum := by
  unfold daily_total_cost
  rw [sum_snd_map_pair]
  rw [((List.mergeSort_perm (df.map Row.date).dedup _).map
    (fun d => ((df.filter fun r => decide (r.date = d)).map Row.cost).sum)).sum_eq]
  exact sum_groupby Row.date Row.cost _ (List.nodup_dedup _) df
    (fun x hx => List.mem_dedup.mpr (List.mem_map_of_mem Row.date hx))

/-- The service totals sum to the total cost of the frame. -/
theorem service_total_cost_sum (df : List Row) :
    ((service_total_cost df).map Prod.snd).sum = (df.map Row.cost).sum := by
  unfold service_total_cost
  rw [sum_snd_map_pair]
  rw [((List.mergeSort_perm (df.map Row.service).dedup _).map
    (fun s => ((df.filter fun r => decide (r.service = s)).map Row.cost).sum)).sum_eq]
  exact sum_groupby Row.service Row.cost _ (List.nodup_dedup _) df
    (fun x hx => List.mem_dedup.mpr (List.mem_map_of_mem Row.service hx))

/-- C5: For every canonical input, the sum over all dates of the daily
totals equals the sum over all services of the service totals, and both
equal the sum of the cost fields of all canonical records (exactly, over
rationals). -/
theorem sum_conservation (df : List Row) :
    ((daily_total_cost df).map Prod.snd).sum = (df.map Row.cost).sum ∧
    ((service_total_cost df).map Prod.snd).sum = (df.map Row.cost).sum ∧
    ((daily_total_cost df).map Prod.snd).sum
      = ((service_total_cost df).map Prod.snd).sum := by
  refine ⟨daily_total_cost_sum df, service_total_cost_sum df, ?_⟩
  rw [daily_total_cost_sum df, service_total_cost_sum df]

/-! ## Properties of `drop_duplicates(subset=['Date','Service'])` -/

/-- Every kept row was a row of the input. -/
theorem dropDupPairs_subset :
    ∀ (l : List RowDS) (seen : List (ℕ × String)) (r : RowDS),
      r ∈ dropDupPairs l seen → r ∈ l := by
  intro l
  induction l with
  | nil => intro seen r h; simp [dropDupPairs] at h
  | cons x rest ih =>
    intro seen r h
    by_cases hx : pairOf x ∈ seen
    · rw [dropDupPairs, if_pos hx] at h
      exact List.mem_cons_of_mem x (ih _ r h)
    · rw [dropDupPairs, if_neg hx] at h
      rcases List.mem_cons.mp h with rfl | h'
      · exact List.mem_cons_self _ _
      · exact List.mem_cons_of_mem _ (ih _ r h')

/-- The kept (Date, Service) keys are exactly the input's keys not already
seen. -/
theorem mem_map_pairOf_dropDupPairs :
    ∀ (l : List RowDS) (seen : List (ℕ × String)) (p : ℕ × String),
      p ∈ (dropDupPairs l seen).map pairOf ↔ p ∈ l.map pairOf ∧ p ∉ seen := by
  intro l
  induction l with
  | nil => intro seen p; simp [dropDupPairs]
  | cons x rest ih =>
    intro seen p
    by_cases hx : pairOf x ∈ seen
    · rw [dropDupPairs, if_pos hx, ih]
      simp only [List.map_cons, List.mem_cons]
      constructor
      · rintro ⟨h1, h2⟩; exact ⟨Or.inr h1, h2⟩
      · rintro ⟨h1 | h1, h2⟩
        · exact absurd (h1 ▸ hx) h2
        · exact ⟨h1, h2⟩
    · rw [dropDupPairs, if_neg hx]
      simp only [List.map_cons, List.mem_cons]
      rw [ih]
      constructor
      · rintro (rfl | ⟨h1, h2⟩)
        · exact ⟨Or.inl rfl, hx⟩
        · exact ⟨Or.inr h1, fun hs => h2 (List.mem_cons_of_mem _ hs)⟩
      · rintro ⟨h1 | h1, h2⟩
        · exact Or.inl h1
        · by_cases hpx : p = pairOf x
          · exact Or.inl hpx
          · exact Or.inr ⟨h1, fun hc => (List.mem_cons.mp hc).elim hpx h2⟩

/-- No (Date, Service) key survives twice. -/
theorem nodup_map_pairOf_dropDupPairs :
    ∀ (l : List RowDS) (seen : List (ℕ × String)),
      ((dropDupPairs l seen).map pairOf).Nodup := by
  intro l
  induction l with
  | nil => intro seen; simp [dropDupPairs]
  | cons x rest ih =>
    intro seen
    by_cases hx : pairOf x ∈ seen
    · rw [dropDupPairs, if_pos hx]; exact ih seen
    · rw [dropDupPairs, if_neg hx]
      simp only [List.map_cons, List.nodup_cons]
      refine ⟨fun hc => ?_, ih _⟩
      exact ((mem_map_pairOf_dropDupPairs rest _ (pairOf x)).mp hc).2
        (List.mem_cons_self _ _)

/-- `keep='first'` characterization: a row is kept exactly when it is the
first input row carrying its own (Date, Service) key, and that key was not
already seen. -/
theorem mem_dropDupPairs_iff_find? :
    ∀ (l : List RowDS) (seen : List (ℕ × String)) (r : RowDS),
      r ∈ dropDupPairs l seen
        ↔ l.find? (fun x => decide (pairOf x = pairOf r)) = some r
            ∧ pairOf r ∉ seen := by
  intro l
  induction l with
  | nil => intro seen r; simp [dropDupPairs]
  | cons x rest ih =>
    intro seen r
    by_cases hpx : pairOf x = pairOf r
    · rw [List.find?_cons_of_pos _ (by simp [hpx])]
      by_cases hx : pairOf x ∈ seen
      · rw [dropDupPairs, if_pos hx, ih]
        constructor
        · rintro ⟨_, hns⟩; exact absurd (hpx ▸ hx) hns
        · rintro ⟨_, hns⟩; exact absurd (hpx ▸ hx) hns
      · rw [dropDupPairs, if_neg hx]
        rw [List.mem_cons, ih]
        constructor
        · rintro (rfl | ⟨_, hns⟩)
          · exact ⟨rfl, hpx ▸ hx⟩
          · exact absurd (hpx ▸ List.mem_cons_self (pairOf x) seen) hns
        · rintro ⟨hxr, _⟩
          exact Or.inl (Option.some.inj hxr).symm
    · rw [List.find?_cons_of_neg _ (by simp [hpx])]
      by_cases hx : pairOf x ∈ seen
      · rw [dropDupPairs, if_pos hx]; exact ih seen r
      · rw [dropDupPairs, if_neg hx, List.mem_cons, ih]
        constructor
        · rintro (rfl | ⟨hf, hns⟩)
          · exact absurd rfl hpx
          · exact ⟨hf, fun hs => hns (List.mem_cons_of_mem _ hs)⟩
        · rintro ⟨hf, hns⟩
          refine Or.inr ⟨hf, fun hc => ?_⟩
          rcases List.mem_cons.mp hc with h | h
          · exact hpx h.symm
          · exact hns h

/-! ## Properties of the transformed frame and the recommendation step -/

/-- Each transformed row keeps its original fields and carries the pair
sum of its own (Date, Service) key. -/
theorem addDayServiceCost_mem (df : List Row) (x : RowDS)
    (hx : x ∈ addDayServiceCost df) :
    x.toRow ∈ df ∧ x.dayServiceCost = pairCost df x.date x.service := by
  unfold addDayServiceCost at hx
  rcases List.mem_map.mp hx with ⟨r, hr, rfl⟩
  exact ⟨hr, rfl⟩

/-- Every row surviving line 123 comes from the frame, carries its pair's
sum, and strictly exceeds the threshold. -/
theorem high_cost_mem (df : List Row) (t : ℚ) (x : RowDS)
    (hx : x ∈ high_cost_per_service_per_day df t) :
    x.toRow ∈ df ∧ x.dayServiceCost = pairCost df x.date x.service
      ∧ t < x.dayServiceCost := by
  unfold high_cost_per_service_per_day at hx
  have hx' := dropDupPairs_subset _ _ _ hx
  have h1 := List.mem_filter.mp hx'
  have h2 := addDayServiceCost_mem df x h1.1
  refine ⟨h2.1, h2.2, ?_⟩
  simpa using h1.2

/-- A (date, service) pair present in the frame whose pair sum strictly
exceeds the threshold is represented in the thresholded deduplicated
rows. -/
theorem pair_mem_high_cost (df : List Row) (t : ℚ) (d : ℕ) (s : String)
    (hpair : (d, s) ∈ df.map fun r => (r.date, r.service))
    (ht : t < pairCost df d s) :
    ∃ x ∈ high_cost_per_service_per_day df t, pairOf x = (d, s) := by
  rcases List.mem_map.mp hpair with ⟨r, hr, hrp⟩
  have hd : r.date = d := congrArg Prod.fst hrp
  have hs : r.service = s := congrArg Prod.snd hrp
  have hx : ({ toRow := r, dayServiceCost := pairCost df r.date r.service } : RowDS)
      ∈ addDayServiceCost df := List.mem_map_of_mem _ hr
  have hmemf : ({ toRow := r, dayServiceCost := pairCost df r.date r.service } : RowDS)
      ∈ (addDayServiceCost df).filter fun y => decide (t < y.dayServiceCost) := by
    refine List.mem_filter.mpr ⟨hx, ?_⟩
    simp only [decide_eq_true_eq]
    rw [hd, hs]
    exact ht
  have hp : (d, s) ∈ ((addDayServiceCost df).filter
      fun y => decide (t < y.dayServiceCost)).map pairOf := by
    refine List.mem_map.mpr ⟨_, hmemf, ?_⟩
    rw [pairOf]
    exact hrp
  have hmem := (mem_map_pairOf_dropDupPairs _ [] (d, s)).mpr
    ⟨hp, List.not_mem_nil _⟩
  rcases List.mem_map.mp hmem with ⟨x, hxm, hxp⟩
  exact ⟨x, hxm, hxp⟩

/-- Searching for a pair in the thresholded frame finds the same row as in
the unthresholded frame, provided every row of that pair passes the
threshold. -/
theorem find?_filter_of_pair {q : RowDS → Bool} (p : ℕ × String) :
    ∀ L : List RowDS, (∀ x ∈ L, pairOf x = p → q x = true) →
      (L.filter q).find? (fun x => decide (pairOf x = p))
        = L.find? (fun x => decide (pairOf x = p)) := by
  intro L
  induction L with
  | nil => intro _; simp
  | cons x L ih =>
    intro hq
    by_cases hpx : pairOf x = p
    · have hqx : q x = true := hq x (List.mem_cons_self _ _) hpx
      rw [List.filter_cons_of_pos hqx, List.find?_cons_of_pos _ (by simp [hpx]),
        List.find?_cons_of_pos _ (by simp [hpx])]
    · by_cases hqx : q x = true
      · rw [List.filter_cons_of_pos hqx, List.find?_cons_of_neg _ (by simp [hpx]),
          List.find?_cons_of_neg _ (by simp [hpx])]
        exact ih fun y hy => hq y (List.mem_cons_of_mem _ hy)
      · rw [List.filter_cons_of_neg (by simpa using hqx),
          List.find?_cons_of_neg _ (by simp [hpx])]
        exact ih fun y hy => hq y (List.mem_cons_of_mem _ hy)

/-- Searching the transformed frame for a pair finds the image of the
first raw row of that pair. -/
theorem find?_addDayServiceCost (df : List Row) (d : ℕ) (s : String) :
    (addDayServiceCost df).find? (fun x => decide (pairOf x = (d, s)))
      = (df.find? fun r => decide (r.date = d) && decide (r.service = s)).map
          fun r => { toRow := r, dayServiceCost := pairCost df r.date r.service } := by
  unfold addDayServiceCost
  have hpe : ((fun x : RowDS => decide (pairOf x = (d, s))) ∘
      fun r : Row => ({ toRow := r, dayServiceCost := pairCost df r.date r.service } : RowDS))
      = fun r : Row => decide (r.date = d) && decide (r.service = s) := by
    funext r
    by_cases h1 : r.date = d
    · by_cases h2 : r.service = s
      · simp [pairOf, Function.comp, h1, h2]
      · simp [pairOf, Function.comp, h1, h2]
    · simp [pairOf, Function.comp, h1]
  rw [List.find?_map, hpe]

/-- Uniqueness: the only thresholded deduplicated row for a pair is the
image of the first raw row of that pair. -/
theorem high_cost_pair_unique (df : List Row) (t : ℚ) (d : ℕ) (s : String) (r₀ : Row)
    (hfind : df.find? (fun r => decide (r.date = d) && decide (r.service = s)) = some r₀)
    (ht : t < pairCost df d s) :
    ∀ x ∈ high_cost_per_service_per_day df t, pairOf x = (d, s) →
      x = { toRow := r₀, dayServiceCost := pairCost df r₀.date r₀.service } := by
  intro x hx hp
  rw [high_cost_per_service_per_day] at hx
  have hmem := (mem_dropDupPairs_iff_find? _ [] x).mp hx
  have hf := hmem.1
  rw [hp] at hf
  have hflt : ∀ y ∈ addDayServiceCost df, pairOf y = (d, s) →
      decide (t < y.dayServiceCost) = true := by
    intro y hy hpy
    have h := addDayServiceCost_mem df y hy
    simp only [decide_eq_true_eq]
    rw [h.2, show y.date = d from congrArg Prod.fst hpy,
      show y.service = s from congrArg Prod.snd hpy]
    exact ht
  rw [find?_filter_of_pair (d, s) _ hflt, find?_addDayServiceCost, hfind] at hf
  exact (Option.some.inj hf).symm

/-- C4: For every canonical input and every threshold, a (date, service)
pair whose summed cost is exactly the threshold produces no
Recommendation, and a pair whose summed cost strictly exceeds the
threshold always produces one (strict inequality at the boundary). -/
theorem threshold_boundary (df : List Row) (t : ℚ) (d : ℕ) (s : String)
    (hpair : (d, s) ∈ df.map fun r => (r.date, r.service)) :
    (pairCost df d s = t →
      ∀ rec ∈ recommendations df t, ¬(rec.date = d ∧ rec.service = s)) ∧
    (t < pairCost df d s →
      ∃ rec ∈ recommendations df t, rec.date = d ∧ rec.service = s) := by
  constructor
  · rintro heq rec hrec ⟨hd, hs⟩
    rw [recommendations] at hrec
    rcases List.mem_map.mp hrec with ⟨x, hx, rfl⟩
    have h := high_cost_mem df t x hx
    have h3 := h.2.2
    rw [h.2.1, show x.date = d from hd, show x.service = s from hs, heq] at h3
    exact lt_irrefl t h3
  · intro ht
    rcases pair_mem_high_cost df t d s hpair ht with ⟨x, hx, hp⟩
    refine ⟨{ date := x.date, service := x.service, cost := x.cost, unit := x.unit }, ?_, ?_, ?_⟩
    · rw [recommendations]; exact List.mem_map.mpr ⟨x, hx, rfl⟩
    · exact congrArg Prod.fst hp
    · exact congrArg Prod.snd hp

/-- In a duplicate-free list, an element that occurs, occurs exactly
once. -/
theorem countP_eq_one_of_nodup {β : Type} [DecidableEq β] :
    ∀ L : List β, L.Nodup → ∀ p ∈ L, L.countP (fun y => decide (y = p)) = 1 := by
  intro L
  induction L with
  | nil => intro _ p hp; exact absurd hp (List.not_mem_nil p)
  | cons a L ih =>
    intro hnd p hp
    rcases List.mem_cons.mp hp with rfl | hp'
    · rw [List.countP_cons_of_pos _ _ (by simp)]
      have hz : L.countP (fun y => decide (y = p)) = 0 := by
        apply List.countP_eq_zero.mpr
        intro y hy
        simp only [decide_eq_true_eq]
        rintro rfl
        exact (List.nodup_cons.mp hnd).1 hy
      rw [hz]
    · rw [List.countP_cons_of_neg _ _ (by
        simp only [decide_eq_true_eq]
        rintro rfl
        exact (List.nodup_cons.mp hnd).1 hp')]
      exact ih (List.nodup_cons.mp hnd).2 p hp'

/-- C3: For any (date, service) pair present in the canonical input, the
deduplicated day-service view has exactly one entry for that pair, that
entry carries the sum of the costs of all contributing rows, and no
(date, service) pair appears twice in the recommendations output. -/
theorem day_service_dedup (df : List Row) (d : ℕ) (s : String)
    (hpair : (d, s) ∈ df.map fun r => (r.date, r.service)) :
    (byDayService df).countP (fun x => decide (pairOf x = (d, s))) = 1 ∧
    (∀ x ∈ byDayService df, pairOf x = (d, s) →
      x.dayServiceCost = pairCost df d s) ∧
    (∀ t : ℚ, ((recommendations df t).map fun rec => (rec.date, rec.service)).Nodup) := by
  refine ⟨?_, ?_, ?_⟩
  · rw [show (fun x => decide (pairOf x = (d, s)))
        = ((fun y => decide (y = (d, s))) ∘ pairOf) from rfl, ← List.countP_map]
    apply countP_eq_one_of_nodup _ (nodup_map_pairOf_dropDupPairs _ _)
    apply (mem_map_pairOf_dropDupPairs _ [] (d, s)).mpr
    refine ⟨?_, List.not_mem_nil _⟩
    rw [addDayServiceCost, List.map_map]
    exact hpair
  · intro x hx hp
    have h := addDayServiceCost_mem df x (dropDupPairs_subset _ _ _ hx)
    rw [h.2, show x.date = d from congrArg Prod.fst hp,
      show x.service = s from congrArg Prod.snd hp]
  · intro t
    rw [recommendations, List.map_map]
    exact nodup_map_pairOf_dropDupPairs _ _

/-- C9: When several raw entries share a (date, service) pair, every
recommendation emitted for that pair carries the unit and the displayed
cost of the first contributing entry in encounter order. -/
theorem recommendation_first_row_fields (df : List Row) (t : ℚ) (d : ℕ) (s : String)
    (r₀ : Row)
    (hfind : df.find? (fun r => decide (r.date = d) && decide (r.service = s)) = some r₀)
    (ht : t < pairCost df d s) :
    ∀ rec ∈ recommendations df t, rec.date = d → rec.service = s →
      rec.unit = r₀.unit ∧ rec.cost = r₀.cost := by
  intro rec hrec hd hs
  rw [recommendations] at hrec
  rcases List.mem_map.mp hrec with ⟨x, hx, rfl⟩
  have hp : pairOf x = (d, s) := by
    rw [pairOf, show x.date = d from hd, show x.service = s from hs]
  have hux := high_cost_pair_unique df t d s r₀ hfind ht x hx hp
  subst hux
  exact ⟨rfl, rfl⟩

/-- C1 (amended): for every (date, service) pair whose summed cost
strictly exceeds the threshold, the emitted Recommendation carries the
pair's date and service, together with the cost and unit of the first
contributing record in encounter order — not the summed cost. -/
theorem recommendation_carries_first_cost (df : List Row) (t : ℚ) (d : ℕ) (s : String)
    (r₀ : Row)
    (hfind : df.find? (fun r => decide (r.date = d) && decide (r.service = s)) = some r₀)
    (ht : t < pairCost df d s) :
    ({ date := d, service := s, cost := r₀.cost, unit := r₀.unit } : Recommendation)
      ∈ recommendations df t := by
  have hr₀ := List.find?_some hfind
  simp only [Bool.and_eq_true, decide_eq_true_eq] at hr₀
  have hpair : (d, s) ∈ df.map fun r => (r.date, r.service) := by
    refine List.mem_map.mpr ⟨r₀, List.mem_of_find?_eq_some hfind, ?_⟩
    rw [hr₀.1, hr₀.2]
  rcases pair_mem_high_cost df t d s hpair ht with ⟨x, hx, hp⟩
  have hux := high_cost_pair_unique df t d s r₀ hfind ht x hx hp
  rw [recommendations]
  refine List.mem_map.mpr ⟨x, hx, ?_⟩
  subst hux
  rw [hr₀.1, hr₀.2]

/-- C1: counterexample to the claim as stated.  The spec scenario — two
EC2 entries of cost 5 and 6 on the same day, threshold 10 — sums to 11
and does exceed the threshold, but the emitted recommendation carries
cost 5 (the first row's own cost), not the summed 11. -/
theorem recommendation_cost_not_summed :
    pairCost [⟨20240101, "EC2", 5, "USD"⟩, ⟨20240101, "EC2", 6, "USD"⟩]
        20240101 "EC2" = 11 ∧
    recommendations [⟨20240101, "EC2", 5, "USD"⟩, ⟨20240101, "EC2", 6, "USD"⟩] 10
      = [{ date := 20240101, service := "EC2", cost := 5, unit := "USD" }] ∧
    ¬ ∃ rec ∈ recommendations
        [⟨20240101, "EC2", 5, "USD"⟩, ⟨20240101, "EC2", 6, "USD"⟩] 10,
        rec.cost = 11 := by
  refine ⟨by norm_num [pairCost], ?_, ?_⟩
  · norm_num [recommendations, high_cost_per_service_per_day, addDayServiceCost,
      pairCost, dropDupPairs, pairOf]
  · rw [show recommendations
        [⟨20240101, "EC2", 5, "USD"⟩, ⟨20240101, "EC2", 6, "USD"⟩] 10
        = [{ date := 20240101, service := "EC2", cost := 5, unit := "USD" }] from by
      norm_num [recommendations, high_cost_per_service_per_day, addDayServiceCost,
        pairCost, dropDupPairs, pairOf]]
    rintro ⟨rec, hrec, hcost⟩
    rw [List.mem_singleton] at hrec
    subst hrec
    norm_num at hcost

/-- C10: the recommendation step only adds the derived `DayServiceCost`
column: projecting the transformed frame back onto its original four
fields gives back the input frame row for row, and the daily and service
aggregates recomputed from the transformed frame coincide with the ones
computed before line 122. -/
theorem recommend_frame_preservation (df : List Row) :
    (addDayServiceCost df).map RowDS.toRow = df ∧
    daily_total_cost ((addDayServiceCost df).map RowDS.toRow) = daily_total_cost df ∧
    service_total_cost ((addDayServiceCost df).map RowDS.toRow) = service_total_cost df := by
  have h : (addDayServiceCost df).map RowDS.toRow = df := by
    rw [addDayServiceCost, List.map_map]
    exact List.map_id df
  exact ⟨h, by rw [h], by rw [h]⟩

/-- C8: the report is a deterministic function of the raw input alone —
it does not depend on the incoming ambient state, and a second run on the
same input (in the world left behind by the first run) produces the
identical report. -/
theorem pipeline_deterministic (w₁ w₂ : World) (entries : List RawEntry) (t : ℚ) :
    (runCoreSt w₁ entries t).1 = (runCoreSt w₂ entries t).1 ∧
    (runCoreSt ((runCoreSt w₁ entries t).2) entries t).1
      = (runCoreSt w₁ entries t).1 := by
  cases h : runCore entries t with
  | error e => simp [runCoreSt, h]
  | ok rep => simp [runCoreSt, h]

/-- C6 (code behaviour): on an empty record set the analysis does not
produce empty aggregates — `df['Date']` on the column-less empty frame
raises `KeyError` at line 100 and the run aborts before any aggregate or
recommendation exists. -/
theorem empty_input_raises (t : ℚ) :
    runCore [] t = .error .keyErrorDate := rfl

/-- C2 (code behaviour): a record that fails normalization is not skipped
and recorded — the run aborts wholesale.  An unparseable date kills the
run inside `pd.to_datetime` (line 100) and a non-numeric cost kills the
first `groupby` sum (line 109); in both cases the valid sibling records
aggregate nowhere, because no aggregate is produced at all. -/
theorem malformed_record_aborts :
    runCore [{ date := "2024-01-01", service := "EC2", cost := .num 5, unit := "USD" },
             { date := "not-a-date", service := "S3", cost := .num 2, unit := "USD" }] 10
      = .error .malformedDate ∧
    runCore [{ date := "2024-01-01", service := "EC2", cost := .num 5, unit := "USD" },
             { date := "2024-01-01", service := "S3", cost := .str "abc", unit := "USD" }] 10
      = .error .nonNumericCost := ⟨rfl, rfl⟩

/-! ## The printed order of the service table

Line 117 sorts the grouped service table with
`sort_values(by='Cost', ascending=False)` under the pandas default
`kind='quicksort'` (numpy introsort), which numpy documents as not
stable.  The program therefore guarantees only `IsCostDescPerm`: the
printed table is some cost-non-increasing permutation of the grouped
table.  The display claims are settled against that relation; the
executable `sort_values_cost_desc` is shown to be one admissible
refinement of it. -/

/-- The comparison at line 117 is transitive. -/
theorem costDesc_trans (a b c : String × ℚ) (hab : decide (b.2 ≤ a.2) = true)
    (hbc : decide (c.2 ≤ b.2) = true) : decide (c.2 ≤ a.2) = true := by
  simp only [decide_eq_true_eq] at hab hbc ⊢
  exact le_trans hbc hab

/-- The comparison at line 117 is total. -/
theorem costDesc_total (a b : String × ℚ) :
    (decide (b.2 ≤ a.2) || decide (a.2 ≤ b.2)) = true := by
  rcases le_total a.2 b.2 with h | h <;> simp [h]

/-- The service names of the grouped table, in list form. -/
theorem service_total_cost_fst (df : List Row) :
    (service_total_cost df).map Prod.fst
      = (df.map Row.service).dedup.mergeSort fun a b => decide (a ≤ b) := by
  unfold service_total_cost
  rw [List.map_map]
  exact List.map_id _

/-- The concrete list used to build the `Report` is one admissible output
of lines 117/150. -/
theorem sort_values_cost_desc_isCostDescPerm (l : List (String × ℚ)) :
    IsCostDescPerm l (sort_values_cost_desc l) := by
  refine ⟨List.mergeSort_perm _ _, ?_⟩
  have h := @List.sorted_mergeSort (String × ℚ) (fun a b => decide (b.2 ≤ a.2))
    costDesc_trans costDesc_total l
  exact h.imp fun hab => by simpa using hab

/-- C7 (amended): the service-totals display is some cost-non-increasing
permutation of the grouped table; every such permutation has exactly one
row per distinct service of the canonical input and is sorted in
descending (non-increasing) order of total cost.  The order among
services with equal totals is not specified by the program. -/
theorem service_totals_display_guarantee (df : List Row) :
    IsCostDescPerm (service_total_cost df)
        (sort_values_cost_desc (service_total_cost df)) ∧
    ∀ out : List (String × ℚ), IsCostDescPerm (service_total_cost df) out →
      ((out.map Prod.fst).Nodup ∧
       (∀ s : String, s ∈ out.map Prod.fst ↔ s ∈ df.map Row.service) ∧
       out.Pairwise fun a b => b.2 ≤ a.2) := by
  refine ⟨sort_values_cost_desc_isCostDescPerm _, ?_⟩
  intro out hout
  have hfstperm : List.Perm (out.map Prod.fst)
      ((service_total_cost df).map Prod.fst) := hout.1.map Prod.fst
  have hLfstnd : ((service_total_cost df).map Prod.fst).Nodup := by
    rw [service_total_cost_fst]
    exact (List.mergeSort_perm _ _).nodup_iff.mpr (List.nodup_dedup _)
  refine ⟨hfstperm.nodup_iff.mpr hLfstnd, ?_, hout.2⟩
  intro s
  rw [hfstperm.mem_iff, service_total_cost_fst, List.mem_mergeSort, List.mem_dedup]

/-- Evaluating the grouped service table of the spec scenario. -/
theorem service_total_cost_specScenario :
    service_total_cost specScenario = [("EC2", 11), ("S3", 2)] := by
  have hkeys : (specScenario.map Row.service).dedup = ["EC2", "S3"] := rfl
  have hsorted : List.Pairwise (fun a b => decide (a ≤ b) = true)
      (["EC2", "S3"] : List String) := by
    refine List.pairwise_cons.mpr ⟨?_, by simp⟩
    intro b hb
    rw [List.mem_singleton] at hb
    subst hb
    exact decide_eq_true (by rw [String.le_iff_toList_le]; decide)
  unfold service_total_cost
  rw [hkeys, List.mergeSort_of_sorted hsorted]
  norm_num [specScenario, show ("S3" : String) ≠ "EC2" from by decide,
    show ("EC2" : String) ≠ "S3" from by decide]

/-- Evaluating the grouped service table of the tie scenario. -/
theorem service_total_cost_tieScenario :
    service_total_cost tieScenario = [("A", 5), ("B", 5)] := by
  have hkeys : (tieScenario.map Row.service).dedup = ["A", "B"] := rfl
  have hsorted : List.Pairwise (fun a b => decide (a ≤ b) = true)
      (["A", "B"] : List String) := by
    refine List.pairwise_cons.mpr ⟨?_, by simp⟩
    intro b hb
    rw [List.mem_singleton] at hb
    subst hb
    exact decide_eq_true (by rw [String.le_iff_toList_le]; decide)
  unfold service_total_cost
  rw [hkeys, List.mergeSort_of_sorted hsorted]
  norm_num [tieScenario, show ("B" : String) ≠ "A" from by decide,
    show ("A" : String) ≠ "B" from by decide]

/-- C7: counterexample to the claim as stated.  For two services A and B
with equal totals, the rearrangement [("B", 5), ("A", 5)] is a
cost-non-increasing permutation of the grouped table — an output the
unstable default sort is permitted to produce — yet it violates the
claimed name-ascending tie order. -/
theorem service_ties_not_guaranteed :
    IsCostDescPerm (service_total_cost tieScenario) [("B", 5), ("A", 5)] ∧
    ¬ (([("B", 5), ("A", 5)] : List (String × ℚ)).Pairwise svcDisplayOrder) := by
  constructor
  · rw [service_total_cost_tieScenario]
    refine ⟨List.Perm.swap ("A", 5) ("B", 5) [], ?_⟩
    refine List.pairwise_cons.mpr ⟨?_, by simp⟩
    intro b hb
    rw [List.mem_singleton] at hb
    subst hb
    norm_num
  · intro hpw
    have h := List.rel_of_pairwise_cons hpw (List.mem_cons_self _ _)
    simp only [svcDisplayOrder] at h
    norm_num at h
    exact absurd h (by decide)

/-! ## Concrete witnesses -/

/-- Witness for `threshold_boundary` at the spec scenario (threshold 10,
pair (2024-01-01, EC2)). -/
theorem threshold_boundary_witness :
    ((20240101, "EC2") ∈ specScenario.map fun r => (r.date, r.service)) ∧
    ((pairCost specScenario 20240101 "EC2" = 10 →
      ∀ rec ∈ recommendations specScenario 10,
        ¬(rec.date = 20240101 ∧ rec.service = "EC2")) ∧
     (10 < pairCost specScenario 20240101 "EC2" →
      ∃ rec ∈ recommendations specScenario 10,
        rec.date = 20240101 ∧ rec.service = "EC2")) :=
  ⟨by decide, threshold_boundary specScenario 10 20240101 "EC2" (by decide)⟩

/-- Witness for `day_service_dedup` at the spec scenario. -/
theorem day_service_dedup_witness :
    ((20240101, "EC2") ∈ specScenario.map fun r => (r.date, r.service)) ∧
    ((byDayService specScenario).countP
        (fun x => decide (pairOf x = (20240101, "EC2"))) = 1 ∧
     (∀ x ∈ byDayService specScenario, pairOf x = (20240101, "EC2") →
        x.dayServiceCost = pairCost specScenario 20240101 "EC2") ∧
     (∀ t : ℚ, ((recommendations specScenario t).map
        fun rec => (rec.date, rec.service)).Nodup)) :=
  ⟨by decide, day_service_dedup specScenario 20240101 "EC2" (by decide)⟩

/-- Witness for `service_totals_display_guarantee`: at the spec scenario,
the list [("EC2", 11), ("S3", 2)] is an admissible display output, and it
has duplicate-free names covering exactly the frame's services, in
non-increasing cost order. -/
theorem service_totals_display_guarantee_witness :
    IsCostDescPerm (service_total_cost specScenario) [("EC2", 11), ("S3", 2)] ∧
    ((([("EC2", 11), ("S3", 2)] : List (String × ℚ)).map Prod.fst).Nodup ∧
     (∀ s : String,
        s ∈ ([("EC2", 11), ("S3", 2)] : List (String × ℚ)).map Prod.fst
          ↔ s ∈ specScenario.map Row.service) ∧
     ([("EC2", 11), ("S3", 2)] : List (String × ℚ)).Pairwise fun a b => b.2 ≤ a.2) := by
  have hrel : IsCostDescPerm (service_total_cost specScenario) [("EC2", 11), ("S3", 2)] := by
    rw [service_total_cost_specScenario]
    refine ⟨List.Perm.refl _, ?_⟩
    refine List.pairwise_cons.mpr ⟨?_, by simp⟩
    intro b hb
    rw [List.mem_singleton] at hb
    subst hb
    norm_num
  exact ⟨hrel, (service_totals_display_guarantee specScenario).2 _ hrel⟩

/-- Witness for `recommendation_first_row_fields`: with rows
(EC2, 5, USD) then (EC2, 6, EUR), any recommendation for the pair shows
unit USD and cost 5 — the first row's fields. -/
theorem recommendation_first_row_fields_witness :
    (mixedUnitScenario.find?
        (fun r => decide (r.date = 20240101) && decide (r.service = "EC2"))
      = some { date := 20240101, service := "EC2", cost := 5, unit := "USD" }) ∧
    (10 < pairCost mixedUnitScenario 20240101 "EC2") ∧
    (∀ rec ∈ recommendations mixedUnitScenario 10,
      rec.date = 20240101 → rec.service = "EC2" →
        rec.unit = "USD" ∧ rec.cost = 5) :=
  ⟨rfl, by norm_num [pairCost, mixedUnitScenario],
    recommendation_first_row_fields mixedUnitScenario 10 20240101 "EC2"
      { date := 20240101, service := "EC2", cost := 5, unit := "USD" }
      rfl (by norm_num [pairCost, mixedUnitScenario])⟩

/-- Witness for `recommendation_carries_first_cost` at the mixed-unit
scenario: the emitted recommendation is (2024-01-01, EC2, 5, USD). -/
theorem recommendation_carries_first_cost_witness :
    (mixedUnitScenario.find?
        (fun r => decide (r.date = 20240101) && decide (r.service = "EC2"))
      = some { date := 20240101, service := "EC2", cost := 5, unit := "USD" }) ∧
    (10 < pairCost mixedUnitScenario 20240101 "EC2") ∧
    ({ date := 20240101, service := "EC2", cost := 5, unit := "USD" } : Recommendation)
      ∈ recommendations mixedUnitScenario 10 :=
  ⟨rfl, by norm_num [pairCost, mixedUnitScenario],
    recommendation_carries_first_cost mixedUnitScenario 10 20240101 "EC2"
      { date := 20240101, service := "EC2", cost := 5, unit := "USD" }
      rfl (by norm_num [pairCost, mixedUnitScenario])⟩

end CostOpt
